import Mathlib

/-!
Verification of the Extraction & Change-Detection Engine of the JYSK stock and
price monitoring program (app.py): text normalization, price parsing, the
virtualized store-row scanner, the row classifier, the extraction
orchestrator, and the change/alert evaluator.  Page interactions are embedded
as explicit outcome data (what each DOM query returned, or that it threw);
everything else is translated directly from the source.
-/

namespace JYSK

/-- Python str.lower, for the characters this program's text handles: ASCII
letters plus the accented Latin capitals that occur in French storefront
text. -/
def pyLowerChar (c : Char) : Char :=
  if 'A' ≤ c ∧ c ≤ 'Z' then Char.ofNat (c.toNat + 32)
  else if c = 'É' then 'é' else if c = 'È' then 'è'
  else if c = 'Ê' then 'ê' else if c = 'À' then 'à'
  else if c = 'Ç' then 'ç' else if c = 'Ô' then 'ô'
  else if c = 'Û' then 'û' else if c = 'Ù' then 'ù'
  else if c = 'Î' then 'î' else if c = 'Ï' then 'ï'
  else c

def pyLower (s : String) : String := ⟨s.toList.map pyLowerChar⟩

/-- Model of NFKD decomposition followed by ASCII encoding with errors
ignored, as in app.py's `_norm`: an accented Latin letter decomposes into its
base letter plus a combining mark and the mark is dropped; any other
non-ASCII character is dropped. -/
def asciiFold (c : Char) : Option Char :=
  if c.toNat < 128 then some c
  else if c ∈ ['é', 'è', 'ê', 'ë'] then some 'e'
  else if c ∈ ['É', 'È', 'Ê', 'Ë'] then some 'E'
  else if c ∈ ['à', 'â', 'ä', 'á'] then some 'a'
  else if c ∈ ['À', 'Â', 'Ä'] then some 'A'
  else if c = 'ç' then some 'c'
  else if c = 'Ç' then some 'C'
  else if c ∈ ['î', 'ï', 'í'] then some 'i'
  else if c ∈ ['Î', 'Ï'] then some 'I'
  else if c ∈ ['ô', 'ö', 'ó'] then some 'o'
  else if c ∈ ['Ô', 'Ö'] then some 'O'
  else if c ∈ ['û', 'ù', 'ü', 'ú'] then some 'u'
  else if c ∈ ['Û', 'Ù', 'Ü'] then some 'U'
  else none

/-- Python str.strip (leading and trailing whitespace removed). -/
def pyStrip (s : String) : String :=
  ⟨((s.toList.dropWhile Char.isWhitespace).reverse.dropWhile
      Char.isWhitespace).reverse⟩

/-- app.py `_norm`: NFKD-decompose, drop what does not encode to ASCII,
lowercase, strip. -/
def norm (s : String) : String :=
  pyStrip (pyLower ⟨s.toList.filterMap asciiFold⟩)

def containsAux (needle : List Char) : List Char → Bool
  | [] => needle.isEmpty
  | c :: rest => List.isPrefixOf needle (c :: rest) || containsAux needle rest

/-- Python's `needle in hay` substring test. -/
def strContains (hay needle : String) : Bool :=
  containsAux needle.toList hay.toList

def digitsToNat (ds : List Char) : ℕ :=
  ds.foldl (fun n c => 10 * n + (c.toNat - 48)) 0

def firstNatAux : List Char → Option ℕ
  | [] => none
  | c :: cs =>
    if c.isDigit then some (digitsToNat ((c :: cs).takeWhile Char.isDigit))
    else firstNatAux cs

/-- Model of `int(re.search(r"(\d+)", t).group(1))`: the first maximal run of
ASCII digits in `t`, as a natural number; `none` when `t` has no digit. -/
def firstNat (s : String) : Option ℕ :=
  firstNatAux s.toList

/-- Keyword set mapping a row's text to quantity 0 in
`extract_qty_from_row`. -/
def unavailableKeywords : List String :=
  ["épuisé", "rupture", "pas de stock", "out of stock"]

/-- Keyword set mapping a row's text to quantity 1 in
`extract_qty_from_row`. -/
def availableKeywords : List String :=
  ["en stock", "disponible", "available"]

/-- A sub-element of a store row: `none` models an element whose inner_text
call throws (stale element), `some t` one whose text reads `t`. -/
abbrev SubEl := Option String

/-- A store row as `extract_qty_from_row` observes it: the sub-element lists
matched by the three selector groups (quantity/badge shaped, stock/availability
shaped, generic span/div), where `none` models a locator whose count() call
throws, and the row's full inner_text (`none` models a throw, which the code
turns into the empty string). -/
structure Row where
  qtyEls : Option (List SubEl)
  stockEls : Option (List SubEl)
  spanEls : Option (List SubEl)
  fullText : Option String
deriving DecidableEq

def scanEls : List SubEl → Option (ℕ × String)
  | [] => none
  | none :: rest => scanEls rest
  | some t :: rest =>
    let t := pyStrip t
    match firstNat t with
    | some n => some (n, t)
    | none => scanEls rest

/-- One selector group of `extract_qty_from_row`'s first tier: at most the
first 8 matched sub-elements are read; elements that throw are skipped; the
first text containing a digit run wins. -/
def scanGroup (g : Option (List SubEl)) : Option (ℕ × String) :=
  match g with
  | none => none
  | some els => scanEls (els.take 8)

/-- app.py `extract_qty_from_row`: try the three selector groups in order for
a digit-bearing sub-element; otherwise lowercase the row's full text and test
it against the unavailable keywords (quantity 0) then the available keywords
(quantity 1); otherwise no quantity. -/
def extract_qty_from_row (row : Row) : Option ℕ × String :=
  match scanGroup row.qtyEls with
  | some (n, t) => (some n, t)
  | none =>
  match scanGroup row.stockEls with
  | some (n, t) => (some n, t)
  | none =>
  match scanGroup row.spanEls with
  | some (n, t) => (some n, t)
  | none =>
    let txt := pyLower (row.fullText.getD "")
    if unavailableKeywords.any (fun k => strContains txt k) then (some 0, txt)
    else if availableKeywords.any (fun k => strContains txt k) then (some 1, txt)
    else (none, txt)

/-- app.py `StoreStock`. -/
structure StoreStock where
  store_name : String
  qty : Option ℕ
  status : String
  raw_text : Option String := none
deriving DecidableEq

/-- What happened for one configured store inside `extract_stock_info`'s
loop: the row lookup (or anything else in the loop body) raised, the row was
not found, or a row was found. -/
inductive StoreOutcome where
  | raised
  | notFound
  | found (row : Row)
deriving DecidableEq

/-- The status derivation in `extract_stock_info`: status starts "unknown"
and becomes "in_stock"/"out_of_stock" when a quantity is known. -/
def statusOf (q : Option ℕ) : String :=
  match q with
  | none => "unknown"
  | some q => if q > 0 then "in_stock" else "out_of_stock"

/-- app.py `extract_stock_info`: one StoreStock per configured store.  A
missing row or an exception yields quantity `none` and status "unknown"; a
found row is classified by `extract_qty_from_row` and the status derived from
the quantity. -/
def extract_stock_info (stores : List (String × StoreOutcome)) :
    List StoreStock :=
  stores.map fun p =>
    match p.2 with
    | .raised => ⟨p.1, none, "unknown", none⟩
    | .notFound => ⟨p.1, none, "unknown", none⟩
    | .found row =>
      let r := extract_qty_from_row row
      ⟨p.1, r.1, statusOf r.1, some r.2⟩

/-- app.py `PriceInfo`. -/
structure PriceInfo where
  current_price : ℚ
  original_price : Option ℚ := none
  is_on_sale : Bool := false
deriving DecidableEq

/-- The product page as `extract_price` observes it: the text content of the
promotional (offerprice) element, of the companion normal-price element, and
of the fallback plain price element; `none` models an absent element. -/
structure PricePage where
  promoText : Option String := none
  normalText : Option String := none
  plainText : Option String := none
deriving DecidableEq

/-- Scanner for the first match of `\d+(?:,\d+)*(?:\.\d+)?` in a character
list that contains no comma (extract_price replaces commas before
searching): returns the integer digit run and the fractional digit run
(empty when no fractional part matches). -/
def findNum : List Char → Option (List Char × List Char)
  | [] => none
  | c :: cs =>
    if c.isDigit then
      let ds := (c :: cs).takeWhile Char.isDigit
      match (c :: cs).dropWhile Char.isDigit with
      | '.' :: r2 => some (ds, r2.takeWhile Char.isDigit)
      | _ => some (ds, [])
    else findNum cs

/-- The rational value of an integer digit run and a fractional digit run,
as Python float() reads the matched text. -/
def decValue (ds fs : List Char) : ℚ :=
  (digitsToNat ds : ℚ) + (digitsToNat fs : ℚ) / 10 ^ fs.length

/-- Model of the price-text parsing in `extract_price`:
`float(re.search(r'(\d+(?:,\d+)*(?:\.\d+)?)', text.replace(',', '.')).group(1))`.
Commas are replaced by decimal points first, then the first numeric run is
read.  `none` models the AttributeError raised by `.group(1)` when no run
matches. -/
def parsePrice (s : String) : Option ℚ :=
  match findNum (s.toList.map fun c => if c = ',' then '.' else c) with
  | none => none
  | some (ds, fs) => some (decValue ds fs)

/-- app.py `extract_price`: promotional branch first (on_sale = true, with
the normal-price element parsed as original price when present), then the
plain price branch; any parse failure or missing element falls back to the
0.0 sentinel via the enclosing exception handler. -/
def extract_price (pg : PricePage) : PriceInfo :=
  match pg.promoText with
  | some t =>
    match parsePrice t with
    | none => ⟨0, none, false⟩
    | some p =>
      match pg.normalText with
      | none => ⟨p, none, true⟩
      | some t2 =>
        match parsePrice t2 with
        | none => ⟨0, none, false⟩
        | some o => ⟨p, some o, true⟩
  | none =>
    match pg.plainText with
    | none => ⟨0, none, false⟩
    | some t =>
      match parsePrice t with
      | none => ⟨0, none, false⟩
      | some p => ⟨p, none, false⟩

/-- The decimal digits of n, least significant first (empty for 0). -/
def natDigitsRev : ℕ → List Char
  | 0 => []
  | n + 1 => Char.ofNat ((n + 1) % 10 + 48) :: natDigitsRev ((n + 1) / 10)
decreasing_by exact Nat.div_lt_self (Nat.succ_pos n) (by norm_num)

/-- The decimal digits of n, most significant first. -/
def natDigits (n : ℕ) : List Char :=
  if n = 0 then ['0'] else (natDigitsRev n).reverse

/-- Left-pad a digit run with zeros to width k. -/
def padZeros (k : ℕ) (ds : List Char) : List Char :=
  List.replicate (k - ds.length) '0' ++ ds

/-- Canonical decimal rendering of the nonnegative value m / 10^k: the digits
of m with a decimal point k places from the right.  This models formatting a
parsed price (Python's decimal rendering of the float) at its parsed
scale. -/
def formatDec (m k : ℕ) : String :=
  if k = 0 then ⟨natDigits m⟩
  else ⟨natDigits (m / 10 ^ k) ++ '.' :: padZeros k (natDigits (m % 10 ^ k))⟩

/-- What the page interactions did during one run of `scrape_product_info`:
whether navigation raised, what the price elements read (extract_price
catches its own exceptions), whether `open_store_drawer` raised (`none`) or
returned its boolean, whether `set_city_to_casablanca` raised, and whether
the stock-extraction pass raised (`none`) or produced per-store outcomes. -/
structure ScrapeOutcome where
  navRaises : Bool
  pricePage : PricePage
  drawer : Option Bool
  setCityRaises : Bool
  stockOutcomes : Option (List (String × StoreOutcome))
deriving DecidableEq

/-- app.py `scrape_product_info`: navigate, extract the price, open the
drawer (on a false return, give back the empty stock list with the extracted
price), set the city, extract stock; an exception at any step is caught at
the per-product boundary and yields ([], PriceInfo(0.0)). -/
def scrape_product_info (o : ScrapeOutcome) : List StoreStock × PriceInfo :=
  if o.navRaises then ([], ⟨0, none, false⟩)
  else
    let price := extract_price o.pricePage
    match o.drawer with
    | none => ([], ⟨0, none, false⟩)
    | some false => ([], price)
    | some true =>
      if o.setCityRaises then ([], ⟨0, none, false⟩)
      else
        match o.stockOutcomes with
        | none => ([], ⟨0, none, false⟩)
        | some stores => (extract_stock_info stores, price)

/-- A row of the alerts table as the cooldown logic reads and writes it. -/
structure AlertRec where
  product_id : ℕ
  store_name : String
  alert_type : String
  sent_at : ℤ
deriving DecidableEq

/-- app.py `should_send_alert`: true iff no alert row with the same product,
store scope and type was recorded after now - min_hours*3600. -/
def should_send_alert (history : List AlertRec) (pid : ℕ)
    (store atype : String) (now minHours : ℤ) : Bool :=
  (history.countP fun r =>
    r.product_id == pid && r.store_name == store && r.alert_type == atype &&
      decide (now - minHours * 3600 < r.sent_at)) == 0

/-- app.py `record_alert`: append one alert row stamped now. -/
def record_alert (history : List AlertRec) (pid : ℕ) (store atype : String)
    (now : ℤ) : List AlertRec :=
  history ++ [⟨pid, store, atype, now⟩]

/-- The observable side effects of `check_alerts`: Telegram sends and alert
rows written. -/
inductive Effect where
  | sendPrice (oldPrice newPrice : ℚ)
  | sendStock (stock : List StoreStock)
  | record (pid : ℕ) (store atype : String) (sentAt : ℤ)
deriving DecidableEq

/-- The configuration `check_alerts` reads: price_monitoring.enabled,
price_change_threshold_percent, alerts.min_hours_between_same_alert, and the
per-store stock thresholds. -/
structure AlertConfig where
  priceEnabled : Bool
  pctThreshold : ℚ
  minHours : ℤ
  stores : List (String × Option ℤ)
deriving DecidableEq

/-- The `next((s['stock_threshold'] for s in stores if s['name'] == x), None)`
lookup in check_alerts. -/
def storeThreshold (stores : List (String × Option ℤ)) (name : String) :
    Option ℤ :=
  match stores.find? (fun s => s.1 == name) with
  | none => none
  | some s => s.2

/-- The stock loop of check_alerts: some store has a truthy threshold, a
known quantity, and quantity < threshold. -/
def stockBelowLimit (stores : List (String × Option ℤ))
    (stock_info : List StoreStock) : Bool :=
  stock_info.any fun s =>
    match storeThreshold stores s.store_name, s.qty with
    | some v, some q => v != 0 && decide ((q : ℤ) < v)
    | _, _ => false

/-- The price trigger of check_alerts: absolute floor of 0.01 when no
percentage threshold is configured, relative threshold otherwise. -/
def priceTrigger (pct : Option ℚ) (c r : ℚ) : Bool :=
  match pct with
  | none => decide (|c - r| ≥ 1 / 100)
  | some p => decide (|c - r| / r * 100 ≥ p)

/-- The price-alert block of check_alerts: evaluated only when both prices
are positive; on trigger and cooldown permission it sends and records. -/
def price_stage (cfg : AlertConfig) (pid : ℕ) (price : PriceInfo) (ref : ℚ)
    (now : ℤ) (history : List AlertRec) : List Effect × List AlertRec :=
  let pct : Option ℚ := if cfg.priceEnabled then some cfg.pctThreshold else none
  if price.current_price > 0 ∧ ref > 0 then
    if priceTrigger pct price.current_price ref &&
        should_send_alert history pid "price_change" "price_change" now
          cfg.minHours then
      ([Effect.sendPrice ref price.current_price,
        Effect.record pid "price_change" "price_change" now],
       record_alert history pid "price_change" "price_change" now)
    else ([], history)
  else ([], history)

/-- The stock-alert block of check_alerts: at most one aggregated stock_low
alert per call. -/
def stock_stage (cfg : AlertConfig) (pid : ℕ) (stock_info : List StoreStock)
    (now : ℤ) (acc : List Effect × List AlertRec) :
    List Effect × List AlertRec :=
  if stockBelowLimit cfg.stores stock_info &&
      should_send_alert acc.2 pid "stock" "stock_low" now cfg.minHours then
    (acc.1 ++ [Effect.sendStock stock_info,
      Effect.record pid "stock" "stock_low" now],
     record_alert acc.2 pid "stock" "stock_low" now)
  else acc

/-- app.py `check_alerts`: the price block then the stock block, returning
the effect trace and the updated alert history. -/
def check_alerts (cfg : AlertConfig) (pid : ℕ)
    (stock_info : List StoreStock) (price : PriceInfo) (ref : ℚ)
    (now : ℤ) (history : List AlertRec) : List Effect × List AlertRec :=
  stock_stage cfg pid stock_info now
    (price_stage cfg pid price ref now history)

def isPriceSend : Effect → Bool
  | .sendPrice _ _ => true
  | _ => false

def isStockSend : Effect → Bool
  | .sendStock _ => true
  | _ => false

def isRecordOf (atype : String) : Effect → Bool
  | .record _ _ t _ => t == atype
  | _ => false

/-- The alert row written by a record effect. -/
def effectRec : Effect → Option AlertRec
  | .record pid store atype t => some ⟨pid, store, atype, t⟩
  | _ => none

/-- The virtualized store list as `find_store_row` observes it: for each
scan iteration (between scrolls), the list of currently rendered row
elements; `none` models a row whose inner_text call throws (stale
element). -/
structure ScanPage where
  rowsAt : ℕ → List (Option String)

/-- One pass of `find_store_row`'s inner loop: the first rendered row whose
normalized text contains the normalized target; rows that throw when read
are skipped. -/
def scanRows (t : String) : List (Option String) → Option String
  | [] => none
  | none :: rest => scanRows t rest
  | some txt :: rest =>
    if strContains (norm txt) t then some txt else scanRows t rest

/-- The outer `for _ in range(12)` loop of `find_store_row`: scan the
rendered rows of each iteration in order, scrolling between passes. -/
def findRowLoop (page : ScanPage) (t : String) : List ℕ → Option String
  | [] => none
  | i :: rest =>
    match scanRows t (page.rowsAt i) with
    | some txt => some txt
    | none => findRowLoop page t rest

/-- app.py `find_store_row`: at most 12 scan iterations; `none` is the
not-found result. -/
def find_store_row (page : ScanPage) (target : String) : Option String :=
  findRowLoop page (norm target) (List.range 12)

/-- Whether a selector group of `extract_qty_from_row` holds, among its
first 8 readable sub-elements, one whose stripped text contains a digit. -/
def groupHasDigit (g : Option (List SubEl)) : Bool :=
  match g with
  | none => false
  | some els => (els.take 8).any fun e =>
      match e with
      | none => false
      | some t => (firstNat (pyStrip t)).isSome

theorem statusOf_spec (q : Option ℕ) :
    (statusOf q = "in_stock" ↔ ∃ n, q = some n ∧ 0 < n) ∧
    (statusOf q = "out_of_stock" ↔ q = some 0) ∧
    (statusOf q = "unknown" ↔ q = none) := by
  rcases q with _ | q
  · refine ⟨?_, ?_, ?_⟩ <;> simp [statusOf]
  · by_cases hq : 0 < q
    · have hst : statusOf (some q) = "in_stock" := by simp [statusOf, hq]
      rw [hst]
      refine ⟨?_, ?_, ?_⟩ <;> simp
      · exact hq
      · omega
    · have hq0 : q = 0 := by omega
      subst hq0
      have hst : statusOf (some 0) = "out_of_stock" := by simp [statusOf]
      rw [hst]
      refine ⟨?_, ?_, ?_⟩ <;> simp

/-- C1: every StockFact produced by the extraction pass — whether the store
row was found, not found, or its processing raised — satisfies:
status = in_stock ↔ quantity present and positive; status = out_of_stock ↔
quantity present and zero; status = unknown ↔ quantity absent. -/
theorem stock_status_invariant (stores : List (String × StoreOutcome))
    (s : StoreStock) (hs : s ∈ extract_stock_info stores) :
    (s.status = "in_stock" ↔ ∃ n, s.qty = some n ∧ 0 < n) ∧
    (s.status = "out_of_stock" ↔ s.qty = some 0) ∧
    (s.status = "unknown" ↔ s.qty = none) := by
  rcases List.mem_map.1 hs with ⟨⟨name, o⟩, _, rfl⟩
  cases o with
  | raised => exact statusOf_spec none
  | notFound => exact statusOf_spec none
  | found row => exact statusOf_spec (extract_qty_from_row row).1

theorem stock_status_invariant_witness :
    ((⟨"JYSK Viva Park", none, "unknown", none⟩ : StoreStock).status =
        "unknown" ↔
      (⟨"JYSK Viva Park", none, "unknown", none⟩ : StoreStock).qty = none) :=
  (stock_status_invariant [("JYSK Viva Park", StoreOutcome.notFound)] _
    (by decide)).2.2

/-- Evaluation helper: once the scanner's output on a concrete string is
known, the parsed price is the decimal value of the two digit runs. -/
theorem parsePrice_eval (s : String) (ds fs : List Char) (n m : ℕ)
    (h : findNum (s.toList.map fun c => if c = ',' then '.' else c) =
      some (ds, fs))
    (hn : digitsToNat ds = n) (hm : digitsToNat fs = m) :
    parsePrice s = some ((n : ℚ) + (m : ℚ) / 10 ^ fs.length) := by
  have h2 : findNum (List.map (fun c => if c = ',' then '.' else c) s.data) =
      some (ds, fs) := h
  simp [parsePrice, h2, decValue, hn, hm]

theorem parsePrice_100DH : parsePrice "100 DH" = some 100 := by
  rw [parsePrice_eval "100 DH" ['1', '0', '0'] [] 100 0 (by decide) (by decide)
    rfl]
  norm_num

theorem parsePrice_200DH : parsePrice "200 DH" = some 200 := by
  rw [parsePrice_eval "200 DH" ['2', '0', '0'] [] 200 0 (by decide) (by decide)
    rfl]
  norm_num

/-- C2 counterexample: extract_price can return on_sale = true with no
original price at all (promo element present, normal-price element absent),
and with an original price strictly below the current price (the code never
compares the two). -/
theorem price_on_sale_invariant_cex :
    extract_price ⟨some "100 DH", none, none⟩ =
      ⟨100, none, true⟩ ∧
    extract_price ⟨some "200 DH", some "100 DH", none⟩ =
      ⟨200, some 100, true⟩ := by
  refine ⟨?_, ?_⟩ <;>
    simp [extract_price, parsePrice_100DH, parsePrice_200DH]

/-- C2 (amended): when extract_price returns on_sale = true, the current
price is the parsed promotional text and the original price is the parsed
normal-price text when that element is present and absent otherwise; neither
the presence of an original price nor `original_price ≥ current_price` is
guaranteed. -/
theorem price_on_sale_characterization (pg : PricePage)
    (h : (extract_price pg).is_on_sale = true) :
    ∃ t p, pg.promoText = some t ∧ parsePrice t = some p ∧
      (extract_price pg).current_price = p ∧
      ((pg.normalText = none ∧ (extract_price pg).original_price = none) ∨
        ∃ t2 o, pg.normalText = some t2 ∧ parsePrice t2 = some o ∧
          (extract_price pg).original_price = some o) := by
  obtain ⟨pt, nt, lt⟩ := pg
  cases pt with
  | none =>
    exfalso
    cases lt with
    | none => simp [extract_price] at h
    | some t =>
      cases hp : parsePrice t with
      | none => simp [extract_price, hp] at h
      | some p => simp [extract_price, hp] at h
  | some t =>
    cases hp : parsePrice t with
    | none => exact absurd h (by simp [extract_price, hp])
    | some p =>
      cases nt with
      | none =>
        exact ⟨t, p, rfl, hp, by simp [extract_price, hp],
          Or.inl ⟨rfl, by simp [extract_price, hp]⟩⟩
      | some t2 =>
        cases ho : parsePrice t2 with
        | none => exact absurd h (by simp [extract_price, hp, ho])
        | some o =>
          exact ⟨t, p, rfl, hp, by simp [extract_price, hp, ho],
            Or.inr ⟨t2, o, rfl, ho, by simp [extract_price, hp, ho]⟩⟩

theorem price_on_sale_characterization_witness :
    ∃ t p,
      (PricePage.mk (some "179,00 DH") (some "199,00 DH") none).promoText =
        some t ∧
      parsePrice t = some p ∧
      (extract_price
        (PricePage.mk (some "179,00 DH") (some "199,00 DH") none)).current_price
        = p ∧
      (((PricePage.mk (some "179,00 DH") (some "199,00 DH") none).normalText =
          none ∧
        (extract_price
          (PricePage.mk (some "179,00 DH") (some "199,00 DH")
            none)).original_price = none) ∨
        ∃ t2 o,
          (PricePage.mk (some "179,00 DH") (some "199,00 DH") none).normalText
            = some t2 ∧
          parsePrice t2 = some o ∧
          (extract_price
            (PricePage.mk (some "179,00 DH") (some "199,00 DH")
              none)).original_price = some o) :=
  price_on_sale_characterization _ (by decide)

theorem digitsToNat_foldl (a : ℕ) (l : List Char) :
    l.foldl (fun n c => 10 * n + (c.toNat - 48)) a =
      a * 10 ^ l.length + digitsToNat l := by
  induction l generalizing a with
  | nil => simp [digitsToNat]
  | cons c cs ih =>
    simp only [List.foldl_cons, List.length_cons, digitsToNat] at ih ⊢
    rw [ih (10 * a + (c.toNat - 48)), ih (10 * 0 + (c.toNat - 48)),
      pow_succ]
    ring

theorem digit_char_toNat (d : ℕ) (h : d < 10) :
    (Char.ofNat (d + 48)).toNat = d + 48 := by
  interval_cases d <;> decide

theorem digit_char_isDigit (d : ℕ) (h : d < 10) :
    (Char.ofNat (d + 48)).isDigit = true := by
  interval_cases d <;> decide

theorem digitsToNat_concat (xs : List Char) (c : Char) :
    digitsToNat (xs ++ [c]) = 10 * digitsToNat xs + (c.toNat - 48) := by
  simp [digitsToNat, List.foldl_append]

theorem digitsToNat_natDigitsRev (n : ℕ) :
    digitsToNat (natDigitsRev n).reverse = n := by
  induction n using Nat.strong_induction_on with
  | _ n ih =>
    match n with
    | 0 => simp [natDigitsRev, digitsToNat]
    | n + 1 =>
      simp only [natDigitsRev, List.reverse_cons, digitsToNat_concat]
      rw [ih ((n + 1) / 10) (Nat.div_lt_self (Nat.succ_pos n) (by norm_num))]
      rw [digit_char_toNat _ (Nat.mod_lt _ (by norm_num))]
      omega

theorem natDigitsRev_digits (n : ℕ) :
    ∀ c ∈ natDigitsRev n, c.isDigit = true := by
  induction n using Nat.strong_induction_on with
  | _ n ih =>
    match n with
    | 0 => intro c hc; simp [natDigitsRev] at hc
    | n + 1 =>
      intro c hc
      simp only [natDigitsRev] at hc
      rcases List.mem_cons.1 hc with rfl | hc
      · exact digit_char_isDigit _ (Nat.mod_lt _ (by norm_num))
      · exact ih ((n + 1) / 10)
          (Nat.div_lt_self (Nat.succ_pos n) (by norm_num)) c hc

theorem natDigits_digits (n : ℕ) : ∀ c ∈ natDigits n, c.isDigit = true := by
  intro c hc
  by_cases h : n = 0
  · subst h
    simp [natDigits] at hc
    subst hc
    decide
  · simp [natDigits, h] at hc
    exact natDigitsRev_digits n c (List.mem_reverse.1 (by simpa using hc))

theorem natDigits_ne_nil (n : ℕ) : natDigits n ≠ [] := by
  by_cases h : n = 0
  · subst h; simp [natDigits]
  · obtain ⟨m, rfl⟩ := Nat.exists_eq_succ_of_ne_zero h
    simp [natDigits, natDigitsRev]

theorem digitsToNat_natDigits (n : ℕ) : digitsToNat (natDigits n) = n := by
  by_cases h : n = 0
  · subst h; rfl
  · simp [natDigits, h, digitsToNat_natDigitsRev]

theorem natDigitsRev_length_le (n : ℕ) :
    ∀ k : ℕ, n < 10 ^ k → (natDigitsRev n).length ≤ k := by
  induction n using Nat.strong_induction_on with
  | _ n ih =>
    match n with
    | 0 => intro k _; simp [natDigitsRev]
    | n + 1 =>
      intro k h
      have hk : k ≠ 0 := by
        intro hk0; subst hk0; simp at h
      obtain ⟨j, rfl⟩ := Nat.exists_eq_succ_of_ne_zero hk
      simp only [natDigitsRev, List.length_cons]
      have hd : (n + 1) / 10 < 10 ^ j := by
        rw [Nat.div_lt_iff_lt_mul (by norm_num)]
        calc n + 1 < 10 ^ (j + 1) := h
          _ = 10 ^ j * 10 := by rw [pow_succ]
      have := ih ((n + 1) / 10)
        (Nat.div_lt_self (Nat.succ_pos n) (by norm_num)) j hd
      omega

theorem natDigits_length_le (n k : ℕ) (hk : k ≠ 0) (h : n < 10 ^ k) :
    (natDigits n).length ≤ k := by
  by_cases h0 : n = 0
  · subst h0; simp [natDigits]; omega
  · simp only [natDigits, h0, if_false, List.length_reverse]
    exact natDigitsRev_length_le n k h

theorem digitsToNat_replicate_zero (j : ℕ) :
    digitsToNat (List.replicate j '0') = 0 := by
  induction j with
  | zero => rfl
  | succ j ih =>
    rw [List.replicate_succ]
    exact ih

theorem digitsToNat_padZeros (k : ℕ) (ds : List Char) :
    digitsToNat (padZeros k ds) = digitsToNat ds := by
  unfold padZeros
  rw [show digitsToNat (List.replicate (k - ds.length) '0' ++ ds) =
      List.foldl (fun n c => 10 * n + (c.toNat - 48))
        (digitsToNat (List.replicate (k - ds.length) '0')) ds from by
    simp [digitsToNat, List.foldl_append]]
  rw [digitsToNat_replicate_zero]
  rfl

theorem padZeros_length (k : ℕ) (ds : List Char) (h : ds.length ≤ k) :
    (padZeros k ds).length = k := by
  simp [padZeros]
  omega

theorem padZeros_digits (k : ℕ) (ds : List Char)
    (h : ∀ c ∈ ds, c.isDigit = true) :
    ∀ c ∈ padZeros k ds, c.isDigit = true := by
  intro c hc
  rcases List.mem_append.1 hc with hc | hc
  · rw [List.eq_of_mem_replicate hc]; decide
  · exact h c hc

theorem isDigit_ne_comma (c : Char) (h : c.isDigit = true) : c ≠ ',' := by
  intro he
  subst he
  exact absurd h (by decide)

theorem map_comma_id (l : List Char) (h : ∀ c ∈ l, c ≠ ',') :
    l.map (fun c => if c = ',' then '.' else c) = l := by
  rw [List.map_congr_left (g := id) (fun a ha => by simp [h a ha]),
    List.map_id]

theorem findNum_digits_only (A : List Char) (hA : A ≠ [])
    (hAd : ∀ c ∈ A, c.isDigit = true) :
    findNum A = some (A, []) := by
  obtain ⟨a, B, rfl⟩ := List.exists_cons_of_ne_nil hA
  have htake : (a :: B).takeWhile Char.isDigit = a :: B :=
    List.takeWhile_eq_self_iff.2 hAd
  have hdrop : (a :: B).dropWhile Char.isDigit = [] :=
    List.dropWhile_eq_nil_iff.2 hAd
  simp [findNum, hAd a (by simp), htake, hdrop]

theorem findNum_digits_dot (A B : List Char) (hA : A ≠ [])
    (hAd : ∀ c ∈ A, c.isDigit = true) (hBd : ∀ c ∈ B, c.isDigit = true) :
    findNum (A ++ '.' :: B) = some (A, B) := by
  obtain ⟨a, C, rfl⟩ := List.exists_cons_of_ne_nil hA
  have hCd : ∀ c ∈ C, c.isDigit = true := fun c hc => hAd c (by simp [hc])
  have htail : ('.' :: B).takeWhile Char.isDigit = [] := by
    simp [List.takeWhile_cons]
  have htake : ((a :: C) ++ '.' :: B).takeWhile Char.isDigit = a :: C := by
    rw [List.takeWhile_append, List.takeWhile_eq_self_iff.2 hAd, if_pos rfl,
      htail, List.append_nil]
  have hdrop : ((a :: C) ++ '.' :: B).dropWhile Char.isDigit = '.' :: B := by
    rw [List.dropWhile_append, List.dropWhile_eq_nil_iff.2 hAd]
    simp [List.dropWhile_cons]
  have hone : (a :: (C ++ '.' :: B)).takeWhile Char.isDigit = a :: C := by
    simpa using htake
  have htwo : (a :: (C ++ '.' :: B)).dropWhile Char.isDigit = '.' :: B := by
    simpa using hdrop
  simp [findNum, hAd a (by simp), hone, htwo,
    List.takeWhile_eq_self_iff.2 hBd]

theorem decValue_eq (ds fs : List Char) :
    decValue ds fs =
      ((digitsToNat ds * 10 ^ fs.length + digitsToNat fs : ℕ) : ℚ) /
        10 ^ fs.length := by
  simp only [decValue]
  have hpow : ((10 : ℚ) ^ fs.length) ≠ 0 := by positivity
  field_simp
  try push_cast
  try ring

theorem parsePrice_mk (l : List Char) :
    parsePrice ⟨l⟩ =
      match findNum (l.map fun c => if c = ',' then '.' else c) with
      | none => none
      | some (ds, fs) => some (decValue ds fs) := rfl

/-- Re-parsing the canonical decimal rendering of m / 10^k yields exactly
m / 10^k. -/
theorem parsePrice_formatDec (m k : ℕ) :
    parsePrice (formatDec m k) = some ((m : ℚ) / 10 ^ k) := by
  by_cases hk : k = 0
  · subst hk
    have hformat : formatDec m 0 = ⟨natDigits m⟩ := by simp [formatDec]
    rw [hformat, parsePrice_mk,
      map_comma_id _ (fun c hc => isDigit_ne_comma c (natDigits_digits m c hc)),
      findNum_digits_only _ (natDigits_ne_nil m) (natDigits_digits m)]
    have hnil : digitsToNat [] = 0 := rfl
    simp [decValue, digitsToNat_natDigits, hnil]
  · have hformat : formatDec m k =
        ⟨natDigits (m / 10 ^ k) ++ '.' ::
          padZeros k (natDigits (m % 10 ^ k))⟩ := by
      simp [formatDec, hk]
    have hBd : ∀ c ∈ padZeros k (natDigits (m % 10 ^ k)), c.isDigit = true :=
      padZeros_digits _ _ (natDigits_digits _)
    have hnc : ∀ c ∈ natDigits (m / 10 ^ k) ++ '.' ::
        padZeros k (natDigits (m % 10 ^ k)), c ≠ ',' := by
      intro c hc
      rcases List.mem_append.1 hc with hc | hc
      · exact isDigit_ne_comma c (natDigits_digits _ c hc)
      · rcases List.mem_cons.1 hc with rfl | hc
        · decide
        · exact isDigit_ne_comma c (hBd c hc)
    rw [hformat, parsePrice_mk, map_comma_id _ hnc,
      findNum_digits_dot _ _ (natDigits_ne_nil _) (natDigits_digits _) hBd]
    have hlen : (padZeros k (natDigits (m % 10 ^ k))).length = k :=
      padZeros_length _ _ (natDigits_length_le _ _ hk
        (Nat.mod_lt _ (by positivity)))
    simp only [decValue, digitsToNat_padZeros, digitsToNat_natDigits, hlen,
      Option.some.injEq]
    have hpow : ((10 : ℚ) ^ k) ≠ 0 := by positivity
    field_simp
    have h3 : m / 10 ^ k * 10 ^ k + m % 10 ^ k = m := by
      have h4 := Nat.div_add_mod m (10 ^ k)
      rw [Nat.mul_comm] at h4
      exact h4
    exact_mod_cast h3

theorem parsePrice_1234comma50 : parsePrice "1234,50" = some ((2469 : ℚ) / 2) := by
  rw [parsePrice_eval "1234,50" ['1', '2', '3', '4'] ['5', '0'] 1234 50
    (by decide) (by decide) (by decide)]
  norm_num

theorem parsePrice_1comma234dot50 :
    parsePrice "1,234.50" = some ((617 : ℚ) / 500) := by
  rw [parsePrice_eval "1,234.50" ['1'] ['2', '3', '4'] 1 234
    (by decide) (by decide) (by decide)]
  norm_num

/-- C4 counterexample: because extract_price replaces commas with decimal
points BEFORE extracting the numeric run, the thousands-separated text
"1,234.50" parses to 1.234, not 1234.50. -/
theorem price_parse_comma_cex :
    parsePrice "1,234.50" = some ((617 : ℚ) / 500) ∧
      ((617 : ℚ) / 500) ≠ (1234.50 : ℚ) :=
  ⟨parsePrice_1comma234dot50, by norm_num⟩

/-- C4 (amended): price-text parsing first replaces every comma with a
decimal point and then extracts the first run matching digits[.digits]?;
"1234,50" parses to 1234.50 but "1,234.50" parses to 1.234; parsing is
idempotent on canonical decimal output: every parsed value is of the form
m / 10^k and re-parsing its decimal rendering yields the same value. -/
theorem price_parse_roundtrip :
    parsePrice "1234,50" = some ((2469 : ℚ) / 2) ∧
    parsePrice "1,234.50" = some ((617 : ℚ) / 500) ∧
    (∀ m k : ℕ, parsePrice (formatDec m k) = some ((m : ℚ) / 10 ^ k)) ∧
    (∀ s : String, ∀ q : ℚ, parsePrice s = some q →
      ∃ m k : ℕ, q = (m : ℚ) / 10 ^ k ∧
        parsePrice (formatDec m k) = some q) := by
  refine ⟨parsePrice_1234comma50, parsePrice_1comma234dot50,
    parsePrice_formatDec, ?_⟩
  intro s q h
  simp only [parsePrice] at h
  rcases hfn : findNum (s.toList.map fun c => if c = ',' then '.' else c)
    with _ | ⟨ds, fs⟩
  · rw [hfn] at h; exact absurd h (by simp)
  · rw [hfn] at h
    simp only [Option.some.injEq] at h
    refine ⟨digitsToNat ds * 10 ^ fs.length + digitsToNat fs, fs.length,
      ?_, ?_⟩
    · rw [← h, decValue_eq]
    · rw [parsePrice_formatDec, ← h, decValue_eq]

theorem price_parse_roundtrip_witness :
    ∃ m k : ℕ, ((2469 : ℚ) / 2) = (m : ℚ) / 10 ^ k ∧
      parsePrice (formatDec m k) = some ((2469 : ℚ) / 2) :=
  price_parse_roundtrip.2.2.2 "1234,50" ((2469 : ℚ) / 2)
    price_parse_roundtrip.1

/-- C3: the orchestrator never propagates an exception: when the drawer
fails to open it returns the empty stock list with the already-extracted
price fact, and on a raise at any step it returns the empty stock list and
the sentinel PriceInfo with current_price = 0.0. -/
theorem scrape_never_propagates (o : ScrapeOutcome) :
    (o.navRaises = false → o.drawer = some false →
      scrape_product_info o = ([], extract_price o.pricePage)) ∧
    (o.navRaises = true ∨ o.drawer = none ∨
        (o.drawer = some true ∧
          (o.setCityRaises = true ∨ o.stockOutcomes = none)) →
      scrape_product_info o = ([], ⟨0, none, false⟩)) := by
  obtain ⟨nav, pg, dr, city, st⟩ := o
  constructor
  · intro h1 h2
    subst h1
    subst h2
    simp [scrape_product_info]
  · intro h
    rcases h with h | h | ⟨h1, h2⟩
    · subst h
      simp [scrape_product_info]
    · subst h
      cases nav <;> simp [scrape_product_info]
    · subst h1
      rcases h2 with h2 | h2
      · subst h2
        cases nav <;> simp [scrape_product_info]
      · subst h2
        cases nav <;> cases city <;> simp [scrape_product_info]

theorem scrape_never_propagates_witness :
    scrape_product_info
        ⟨false, ⟨some "179,00 DH", none, none⟩, some false, false, none⟩ =
      ([], extract_price ⟨some "179,00 DH", none, none⟩) :=
  (scrape_never_propagates _).1 rfl rfl

/-- The stock block never adds price sends to the trace. -/
theorem stock_stage_countP_price (cfg : AlertConfig) (pid : ℕ)
    (stock : List StoreStock) (now : ℤ) (acc : List Effect × List AlertRec) :
    (stock_stage cfg pid stock now acc).1.countP isPriceSend =
      acc.1.countP isPriceSend := by
  unfold stock_stage
  split
  · simp [List.countP_append, List.countP_cons, isPriceSend]
  · rfl

theorem priceTrigger_104 : priceTrigger (some 5) 104 100 = false := by
  have h4 : |(104 : ℚ) - 100| = 4 := by
    rw [show (104 : ℚ) - 100 = 4 by norm_num,
      abs_of_nonneg (by norm_num : (0 : ℚ) ≤ 4)]
  simp only [priceTrigger, h4, decide_eq_false_iff_not]
  norm_num

theorem priceTrigger_106 : priceTrigger (some 5) 106 100 = true := by
  have h6 : |(106 : ℚ) - 100| = 6 := by
    rw [show (106 : ℚ) - 100 = 6 by norm_num,
      abs_of_nonneg (by norm_num : (0 : ℚ) ≤ 6)]
  simp only [priceTrigger, h6, decide_eq_true_eq]
  norm_num

/-- C5: the price rule runs only when both prices are positive; with a 5%
percentage threshold and reference 100, price 104 does not trigger while 106
does; with percentage mode disabled, any absolute change of at least 0.01
currency units triggers. -/
theorem price_rule_thresholds :
    (∀ (cfg : AlertConfig) (pid : ℕ) (stock : List StoreStock)
        (price : PriceInfo) (ref : ℚ) (now : ℤ) (h : List AlertRec),
      ¬(price.current_price > 0 ∧ ref > 0) →
      (check_alerts cfg pid stock price ref now h).1.countP isPriceSend = 0) ∧
    (check_alerts ⟨true, 5, 24, []⟩ 1 [] ⟨104, none, false⟩ 100 0
        []).1.countP isPriceSend = 0 ∧
    (check_alerts ⟨true, 5, 24, []⟩ 1 [] ⟨106, none, false⟩ 100 0
        []).1.countP isPriceSend = 1 ∧
    (∀ c r : ℚ, 0 < c → 0 < r → |c - r| ≥ 1 / 100 →
      (check_alerts ⟨false, 0, 24, []⟩ 1 [] ⟨c, none, false⟩ r 0
        []).1.countP isPriceSend = 1) := by
  refine ⟨?_, ?_, ?_, ?_⟩
  · intro cfg pid stock price ref now h hc
    simp only [check_alerts]
    rw [stock_stage_countP_price]
    simp only [price_stage, if_neg hc]
    rfl
  · simp only [check_alerts]
    rw [stock_stage_countP_price]
    simp only [price_stage]
    rw [if_pos (by constructor <;> norm_num :
      ((⟨104, none, false⟩ : PriceInfo).current_price > 0 ∧ (100 : ℚ) > 0))]
    simp [priceTrigger_104]
  · simp only [check_alerts]
    rw [stock_stage_countP_price]
    simp only [price_stage]
    rw [if_pos (by constructor <;> norm_num :
      ((⟨106, none, false⟩ : PriceInfo).current_price > 0 ∧ (100 : ℚ) > 0))]
    rw [if_pos]
    · simp [List.countP_cons, isPriceSend]
    · rw [show (if True then some (5 : ℚ) else none) = some 5 from rfl,
        priceTrigger_106]
      rfl
  · intro c r hcpos hrpos habs
    simp only [check_alerts]
    rw [stock_stage_countP_price]
    simp only [price_stage]
    rw [if_pos (⟨hcpos, hrpos⟩ :
      ((⟨c, none, false⟩ : PriceInfo).current_price > 0 ∧ r > 0))]
    rw [if_pos]
    · simp [List.countP_cons, isPriceSend]
    · have ht : priceTrigger none c r = true := by
        simp only [priceTrigger, decide_eq_true_eq]
        exact habs
      rw [show (if false = true then some (0 : ℚ) else none) = none from rfl,
        ht]
      rfl

theorem price_rule_thresholds_witness :
    (check_alerts ⟨false, 0, 24, []⟩ 1 [] ⟨1, none, false⟩ 2 0
      []).1.countP isPriceSend = 1 :=
  price_rule_thresholds.2.2.2 1 2 (by norm_num) (by norm_num)
    (by
      rw [show (1 : ℚ) - 2 = -1 by norm_num, abs_neg, abs_one]
      norm_num)

/-- A matching alert row inside the window forces the cooldown gate shut. -/
theorem should_send_false_of_mem (h : List AlertRec) (pid : ℕ)
    (store atype : String) (now minHours : ℤ) (r : AlertRec) (hr : r ∈ h)
    (h1 : r.product_id = pid) (h2 : r.store_name = store)
    (h3 : r.alert_type = atype) (h4 : now - minHours * 3600 < r.sent_at) :
    should_send_alert h pid store atype now minHours = false := by
  unfold should_send_alert
  have hpos : 0 < h.countP fun r =>
      r.product_id == pid && r.store_name == store &&
        r.alert_type == atype &&
        decide (now - minHours * 3600 < r.sent_at) :=
    List.countP_pos_iff.2 ⟨r, hr, by simp [h1, h2, h3, h4]⟩
  rw [beq_eq_false_iff_ne]
  omega

/-- The price block either does nothing or emits exactly one send/record
pair, the latter only with the cooldown gate open. -/
theorem price_stage_cases (cfg : AlertConfig) (pid : ℕ) (price : PriceInfo)
    (ref : ℚ) (now : ℤ) (history : List AlertRec) :
    price_stage cfg pid price ref now history = ([], history) ∨
    (price_stage cfg pid price ref now history =
      ([Effect.sendPrice ref price.current_price,
        Effect.record pid "price_change" "price_change" now],
       record_alert history pid "price_change" "price_change" now) ∧
      should_send_alert history pid "price_change" "price_change" now
        cfg.minHours = true) := by
  simp only [price_stage]
  by_cases hc : price.current_price > 0 ∧ ref > 0
  · rw [if_pos hc]
    by_cases ht :
      (priceTrigger
          (if cfg.priceEnabled then some cfg.pctThreshold else none)
          price.current_price ref &&
        should_send_alert history pid "price_change" "price_change" now
          cfg.minHours) = true
    · rw [if_pos ht]
      rw [Bool.and_eq_true] at ht
      exact Or.inr ⟨rfl, ht.2⟩
    · rw [if_neg ht]
      exact Or.inl rfl
  · rw [if_neg hc]
    exact Or.inl rfl

/-- The stock block either does nothing or emits exactly one send/record
pair, the latter only with the cooldown gate open. -/
theorem stock_stage_cases (cfg : AlertConfig) (pid : ℕ)
    (stock : List StoreStock) (now : ℤ) (acc : List Effect × List AlertRec) :
    stock_stage cfg pid stock now acc = acc ∨
    (stock_stage cfg pid stock now acc =
      (acc.1 ++ [Effect.sendStock stock,
        Effect.record pid "stock" "stock_low" now],
       record_alert acc.2 pid "stock" "stock_low" now) ∧
      should_send_alert acc.2 pid "stock" "stock_low" now
        cfg.minHours = true) := by
  simp only [stock_stage]
  by_cases ht :
    (stockBelowLimit cfg.stores stock &&
      should_send_alert acc.2 pid "stock" "stock_low" now
        cfg.minHours) = true
  · rw [if_pos ht]
    rw [Bool.and_eq_true] at ht
    exact Or.inr ⟨rfl, ht.2⟩
  · rw [if_neg ht]
    exact Or.inl rfl

theorem price_stage_mem (cfg : AlertConfig) (pid : ℕ) (price : PriceInfo)
    (ref : ℚ) (now : ℤ) (history : List AlertRec) (r : AlertRec)
    (hr : r ∈ history) :
    r ∈ (price_stage cfg pid price ref now history).2 := by
  rcases price_stage_cases cfg pid price ref now history with h | ⟨h, -⟩ <;>
    rw [h]
  · exact hr
  · exact List.mem_append_left _ hr

theorem stock_stage_mem (cfg : AlertConfig) (pid : ℕ)
    (stock : List StoreStock) (now : ℤ) (acc : List Effect × List AlertRec)
    (r : AlertRec) (hr : r ∈ acc.2) :
    r ∈ (stock_stage cfg pid stock now acc).2 := by
  rcases stock_stage_cases cfg pid stock now acc with h | ⟨h, -⟩ <;> rw [h]
  · exact hr
  · exact List.mem_append_left _ hr

/-- The stock block adds no price_change records to the trace. -/
theorem stock_stage_countP_recPrice (cfg : AlertConfig) (pid : ℕ)
    (stock : List StoreStock) (now : ℤ)
    (acc : List Effect × List AlertRec) :
    (stock_stage cfg pid stock now acc).1.countP
        (isRecordOf "price_change") =
      acc.1.countP (isRecordOf "price_change") := by
  rcases stock_stage_cases cfg pid stock now acc with h | ⟨h, -⟩ <;> rw [h]
  simp [List.countP_append, List.countP_cons, isRecordOf]

/-- The price block adds no stock_low records to the trace. -/
theorem price_stage_countP_recStock (cfg : AlertConfig) (pid : ℕ)
    (price : PriceInfo) (ref : ℚ) (now : ℤ) (history : List AlertRec) :
    (price_stage cfg pid price ref now history).1.countP
      (isRecordOf "stock_low") = 0 := by
  rcases price_stage_cases cfg pid price ref now history with h | ⟨h, -⟩ <;>
    rw [h]
  · rfl
  · simp [List.countP_cons, isRecordOf]

theorem check_alerts_countP_recPrice_le_one (cfg : AlertConfig) (pid : ℕ)
    (stock : List StoreStock) (price : PriceInfo) (ref : ℚ) (now : ℤ)
    (h : List AlertRec) :
    (check_alerts cfg pid stock price ref now h).1.countP
      (isRecordOf "price_change") ≤ 1 := by
  simp only [check_alerts]
  rw [stock_stage_countP_recPrice]
  rcases price_stage_cases cfg pid price ref now h with hp | ⟨hp, -⟩ <;>
    rw [hp]
  · simp
  · simp [List.countP_cons, isRecordOf]

theorem check_alerts_countP_recStock_le_one (cfg : AlertConfig) (pid : ℕ)
    (stock : List StoreStock) (price : PriceInfo) (ref : ℚ) (now : ℤ)
    (h : List AlertRec) :
    (check_alerts cfg pid stock price ref now h).1.countP
      (isRecordOf "stock_low") ≤ 1 := by
  simp only [check_alerts]
  rcases stock_stage_cases cfg pid stock now
      (price_stage cfg pid price ref now h) with hs | ⟨hs, -⟩ <;> rw [hs]
  · rw [price_stage_countP_recStock]
    omega
  · simp [List.countP_append, List.countP_cons, isRecordOf,
      price_stage_countP_recStock]

theorem check_alerts_no_recPrice_of_mem (cfg : AlertConfig) (pid : ℕ)
    (stock : List StoreStock) (price : PriceInfo) (ref : ℚ) (now : ℤ)
    (h : List AlertRec) (r : AlertRec) (hr : r ∈ h)
    (h1 : r.product_id = pid) (h2 : r.store_name = "price_change")
    (h3 : r.alert_type = "price_change")
    (h4 : now - cfg.minHours * 3600 < r.sent_at) :
    (check_alerts cfg pid stock price ref now h).1.countP
      (isRecordOf "price_change") = 0 := by
  have hg : should_send_alert h pid "price_change" "price_change" now
      cfg.minHours = false :=
    should_send_false_of_mem h pid _ _ now cfg.minHours r hr h1 h2 h3 h4
  simp only [check_alerts]
  rw [stock_stage_countP_recPrice]
  rcases price_stage_cases cfg pid price ref now h with hp | ⟨hp, hgate⟩
  · rw [hp]
    rfl
  · rw [hg] at hgate
    exact (Bool.false_ne_true hgate).elim

theorem check_alerts_no_recStock_of_mem (cfg : AlertConfig) (pid : ℕ)
    (stock : List StoreStock) (price : PriceInfo) (ref : ℚ) (now : ℤ)
    (h : List AlertRec) (r : AlertRec) (hr : r ∈ h)
    (h1 : r.product_id = pid) (h2 : r.store_name = "stock")
    (h3 : r.alert_type = "stock_low")
    (h4 : now - cfg.minHours * 3600 < r.sent_at) :
    (check_alerts cfg pid stock price ref now h).1.countP
      (isRecordOf "stock_low") = 0 := by
  have hmem : r ∈ (price_stage cfg pid price ref now h).2 :=
    price_stage_mem cfg pid price ref now h r hr
  have hg : should_send_alert (price_stage cfg pid price ref now h).2 pid
      "stock" "stock_low" now cfg.minHours = false :=
    should_send_false_of_mem _ pid _ _ now cfg.minHours r hmem h1 h2 h3 h4
  simp only [check_alerts]
  rcases stock_stage_cases cfg pid stock now
      (price_stage cfg pid price ref now h) with hs | ⟨hs, hgate⟩
  · rw [hs, price_stage_countP_recStock]
  · rw [hg] at hgate
    exact (Bool.false_ne_true hgate).elim

/-- C6: two evaluator calls for the same product within the cooldown window
emit, per alert kind, at most one alert across both calls (an emitted alert
is witnessed by its record effect in the trace). -/
theorem alert_cooldown (cfg : AlertConfig) (pid : ℕ)
    (stock1 stock2 : List StoreStock) (price1 price2 : PriceInfo)
    (ref1 ref2 : ℚ) (t1 t2 : ℤ) (h0 : List AlertRec)
    (hwin : t2 - t1 < cfg.minHours * 3600) :
    (check_alerts cfg pid stock1 price1 ref1 t1 h0).1.countP
        (isRecordOf "price_change") +
      (check_alerts cfg pid stock2 price2 ref2 t2
          (check_alerts cfg pid stock1 price1 ref1 t1 h0).2).1.countP
        (isRecordOf "price_change") ≤ 1 ∧
    (check_alerts cfg pid stock1 price1 ref1 t1 h0).1.countP
        (isRecordOf "stock_low") +
      (check_alerts cfg pid stock2 price2 ref2 t2
          (check_alerts cfg pid stock1 price1 ref1 t1 h0).2).1.countP
        (isRecordOf "stock_low") ≤ 1 := by
  constructor
  · rcases price_stage_cases cfg pid price1 ref1 t1 h0 with hp | ⟨hp, -⟩
    · have hc1 : (check_alerts cfg pid stock1 price1 ref1 t1 h0).1.countP
          (isRecordOf "price_change") = 0 := by
        simp only [check_alerts]
        rw [stock_stage_countP_recPrice, hp]
        rfl
      have hc2 := check_alerts_countP_recPrice_le_one cfg pid stock2 price2
        ref2 t2 (check_alerts cfg pid stock1 price1 ref1 t1 h0).2
      omega
    · have hc1 : (check_alerts cfg pid stock1 price1 ref1 t1 h0).1.countP
          (isRecordOf "price_change") = 1 := by
        simp only [check_alerts]
        rw [stock_stage_countP_recPrice, hp]
        simp [List.countP_cons, isRecordOf]
      have hmem : (⟨pid, "price_change", "price_change", t1⟩ : AlertRec) ∈
          (check_alerts cfg pid stock1 price1 ref1 t1 h0).2 := by
        simp only [check_alerts]
        apply stock_stage_mem
        rw [hp]
        simp [record_alert]
      have hc2 : (check_alerts cfg pid stock2 price2 ref2 t2
          (check_alerts cfg pid stock1 price1 ref1 t1 h0).2).1.countP
          (isRecordOf "price_change") = 0 :=
        check_alerts_no_recPrice_of_mem cfg pid stock2 price2 ref2 t2 _ _
          hmem rfl rfl rfl (by simpa using by omega :
            t2 - cfg.minHours * 3600 <
              (⟨pid, "price_change", "price_change", t1⟩ : AlertRec).sent_at)
      omega
  · rcases stock_stage_cases cfg pid stock1 t1
        (price_stage cfg pid price1 ref1 t1 h0) with hs | ⟨hs, -⟩
    · have hc1 : (check_alerts cfg pid stock1 price1 ref1 t1 h0).1.countP
          (isRecordOf "stock_low") = 0 := by
        simp only [check_alerts]
        rw [hs, price_stage_countP_recStock]
      have hc2 := check_alerts_countP_recStock_le_one cfg pid stock2 price2
        ref2 t2 (check_alerts cfg pid stock1 price1 ref1 t1 h0).2
      omega
    · have hc1 : (check_alerts cfg pid stock1 price1 ref1 t1 h0).1.countP
          (isRecordOf "stock_low") = 1 := by
        simp only [check_alerts]
        rw [hs]
        simp [List.countP_append, List.countP_cons, isRecordOf,
          price_stage_countP_recStock]
      have hmem : (⟨pid, "stock", "stock_low", t1⟩ : AlertRec) ∈
          (check_alerts cfg pid stock1 price1 ref1 t1 h0).2 := by
        simp only [check_alerts]
        rw [hs]
        simp [record_alert]
      have hc2 : (check_alerts cfg pid stock2 price2 ref2 t2
          (check_alerts cfg pid stock1 price1 ref1 t1 h0).2).1.countP
          (isRecordOf "stock_low") = 0 :=
        check_alerts_no_recStock_of_mem cfg pid stock2 price2 ref2 t2 _ _
          hmem rfl rfl rfl (by simpa using by omega :
            t2 - cfg.minHours * 3600 <
              (⟨pid, "stock", "stock_low", t1⟩ : AlertRec).sent_at)
      omega

theorem alert_cooldown_witness :
    (check_alerts ⟨false, 0, 24, []⟩ 1 [] ⟨1, none, false⟩ 2 0 []).1.countP
        (isRecordOf "price_change") +
      (check_alerts ⟨false, 0, 24, []⟩ 1 [] ⟨1, none, false⟩ 2 10
          (check_alerts ⟨false, 0, 24, []⟩ 1 [] ⟨1, none, false⟩ 2 0
            []).2).1.countP (isRecordOf "price_change") ≤ 1 :=
  (alert_cooldown ⟨false, 0, 24, []⟩ 1 [] [] ⟨1, none, false⟩
    ⟨1, none, false⟩ 2 2 0 10 [] (by norm_num)).1

theorem priceTrigger_179_199 : priceTrigger none 179 199 = true := by
  simp only [priceTrigger, decide_eq_true_eq]
  rw [show (179 : ℚ) - 199 = -20 by norm_num, abs_neg,
    abs_of_nonneg (by norm_num : (0 : ℚ) ≤ 20)]
  norm_num

/-- C7 counterexample: check_alerts itself emits a Telegram send and writes
an alert history row; it does not merely return decisions for a caller to
act on. -/
theorem evaluator_pure_cex :
    (check_alerts ⟨false, 0, 24, []⟩ 1 [] ⟨179, none, false⟩ 199 1000
        []).1 =
      [Effect.sendPrice 199 179,
        Effect.record 1 "price_change" "price_change" 1000] ∧
    (check_alerts ⟨false, 0, 24, []⟩ 1 [] ⟨179, none, false⟩ 199 1000
        []).2 =
      [⟨1, "price_change", "price_change", 1000⟩] := by
  have hp : price_stage ⟨false, 0, 24, []⟩ 1 ⟨179, none, false⟩ 199 1000 [] =
      ([Effect.sendPrice 199 179,
        Effect.record 1 "price_change" "price_change" 1000],
       [⟨1, "price_change", "price_change", 1000⟩]) := by
    simp only [price_stage]
    rw [if_pos (⟨by norm_num, by norm_num⟩ :
      ((⟨179, none, false⟩ : PriceInfo).current_price > 0 ∧ (199 : ℚ) > 0))]
    rw [show (if (false : Bool) then some (0 : ℚ) else none) = none from rfl,
      priceTrigger_179_199]
    rw [show should_send_alert [] 1 "price_change" "price_change" 1000 24 =
      true from rfl]
    simp [record_alert]
  have hfull : check_alerts ⟨false, 0, 24, []⟩ 1 [] ⟨179, none, false⟩ 199
      1000 [] =
      ([Effect.sendPrice 199 179,
        Effect.record 1 "price_change" "price_change" 1000],
       [⟨1, "price_change", "price_change", 1000⟩]) := by
    simp only [check_alerts, hp]
    simp [stock_stage, stockBelowLimit]
  exact ⟨by rw [hfull], by rw [hfull]⟩

/-- C7 (amended): check_alerts performs the sending and the cooldown
recording itself: in its effect trace each alert kind has exactly as many
sends as records, and the returned history is the input history extended by
exactly the recorded rows. -/
theorem evaluator_send_record_paired (cfg : AlertConfig) (pid : ℕ)
    (stock : List StoreStock) (price : PriceInfo) (ref : ℚ) (now : ℤ)
    (h : List AlertRec) :
    ((check_alerts cfg pid stock price ref now h).1.countP isPriceSend =
      (check_alerts cfg pid stock price ref now h).1.countP
        (isRecordOf "price_change")) ∧
    ((check_alerts cfg pid stock price ref now h).1.countP isStockSend =
      (check_alerts cfg pid stock price ref now h).1.countP
        (isRecordOf "stock_low")) ∧
    ((check_alerts cfg pid stock price ref now h).2 =
      h ++ (check_alerts cfg pid stock price ref now h).1.filterMap
        effectRec) := by
  rcases price_stage_cases cfg pid price ref now h with hp | ⟨hp, -⟩ <;>
    rcases stock_stage_cases cfg pid stock now
        (price_stage cfg pid price ref now h) with hs | ⟨hs, -⟩ <;>
    rw [hp] at hs <;>
    simp only [check_alerts, hp, hs] <;>
    refine ⟨?_, ?_, ?_⟩ <;>
    first
      | rfl
      | simp [record_alert, List.countP_append, List.countP_cons,
          isPriceSend, isStockSend, isRecordOf, effectRec,
          List.filterMap_append, List.filterMap_cons]

theorem scanRows_none (t : String) (rows : List (Option String))
    (h : ∀ txt, some txt ∈ rows → strContains (norm txt) t = false) :
    scanRows t rows = none := by
  induction rows with
  | nil => rfl
  | cons e rest ih =>
    cases e with
    | none =>
      exact ih fun txt htxt => h txt (List.mem_cons_of_mem _ htxt)
    | some txt =>
      have hc := h txt (List.mem_cons_self _ _)
      simp only [scanRows, hc]
      exact ih fun txt2 htxt2 => h txt2 (List.mem_cons_of_mem _ htxt2)

theorem findRowLoop_none (page : ScanPage) (t : String) (iters : List ℕ)
    (h : ∀ i ∈ iters, ∀ txt, some txt ∈ page.rowsAt i →
      strContains (norm txt) t = false) :
    findRowLoop page t iters = none := by
  induction iters with
  | nil => rfl
  | cons i rest ih =>
    simp only [findRowLoop,
      scanRows_none t (page.rowsAt i) (h i (List.mem_cons_self _ _))]
    exact ih fun j hj => h j (List.mem_cons_of_mem _ hj)

theorem findRowLoop_congr (page page2 : ScanPage) (t : String)
    (iters : List ℕ)
    (h : ∀ i ∈ iters, page.rowsAt i = page2.rowsAt i) :
    findRowLoop page t iters = findRowLoop page2 t iters := by
  induction iters with
  | nil => rfl
  | cons i rest ih =>
    simp only [findRowLoop, h i (List.mem_cons_self _ _)]
    rcases hscan : scanRows t (page2.rowsAt i) with _ | txt
    · exact ih fun j hj => h j (List.mem_cons_of_mem _ hj)
    · rfl

theorem scanRows_reduceOption (t : String) (rows : List (Option String)) :
    scanRows t (rows.reduceOption.map some) = scanRows t rows := by
  induction rows with
  | nil => rfl
  | cons e rest ih =>
    cases e with
    | none => simpa [List.reduceOption_cons_of_none] using ih
    | some txt =>
      simp only [List.reduceOption_cons_of_some, List.map_cons, scanRows,
        List.reduceOption] at ih ⊢
      rw [ih]

/-- C8: the scanner is bounded and total: its result is determined by the
rows rendered during the first 12 iterations; when none of those rows
contains the normalized target it returns not-found; and rows that throw
when read are skipped without affecting the scan. -/
theorem find_store_row_bounded (page page2 : ScanPage) (target : String) :
    ((∀ i < 12, ∀ txt, some txt ∈ page.rowsAt i →
        strContains (norm txt) (norm target) = false) →
      find_store_row page target = none) ∧
    ((∀ i < 12, page.rowsAt i = page2.rowsAt i) →
      find_store_row page target = find_store_row page2 target) ∧
    (find_store_row ⟨fun i => (page.rowsAt i).reduceOption.map some⟩ target =
      find_store_row page target) := by
  refine ⟨?_, ?_, ?_⟩
  · intro h
    exact findRowLoop_none page (norm target) (List.range 12)
      fun i hi => h i (List.mem_range.1 hi)
  · intro h
    exact findRowLoop_congr page page2 (norm target) (List.range 12)
      fun i hi => h i (List.mem_range.1 hi)
  · unfold find_store_row
    induction List.range 12 with
    | nil => rfl
    | cons i rest ih =>
      simp only [findRowLoop, scanRows_reduceOption]
      rcases hscan : scanRows (norm target) (page.rowsAt i) with _ | txt
      · exact ih
      · rfl

theorem find_store_row_bounded_witness :
    find_store_row ⟨fun _ => [some "JYSK Aeria Mall", none]⟩
      "JYSK Viva Park" = none :=
  (find_store_row_bounded ⟨fun _ => [some "JYSK Aeria Mall", none]⟩
    ⟨fun _ => []⟩ "JYSK Viva Park").1
    (by
      intro i hi txt htxt
      simp only [List.mem_cons] at htxt
      rcases htxt with htxt | htxt
      · rw [Option.some.injEq] at htxt
        subst htxt
        decide
      · simp at htxt)

/-- C9 counterexample: keyword matching in extract_qty_from_row is NOT
diacritic-normalized, only lowercased: the row text "Epuise" (no accents)
yields no quantity, although under the claimed case/diacritic normalization
it matches the unavailable keyword "épuisé". -/
theorem row_classifier_diacritics_cex :
    (extract_qty_from_row ⟨some [], some [], some [], some "Epuise"⟩).1 =
        none ∧
    (unavailableKeywords.any fun k =>
      strContains (norm "Epuise") (norm k)) = true := by
  constructor <;> decide

theorem scanEls_none (l : List SubEl)
    (h : (l.any fun e =>
      match e with
      | none => false
      | some t => (firstNat (pyStrip t)).isSome) = false) :
    scanEls l = none := by
  induction l with
  | nil => rfl
  | cons e rest ih =>
    simp only [List.any_cons, Bool.or_eq_false_iff] at h
    cases e with
    | none => exact ih h.2
    | some t =>
      have hnone : firstNat (pyStrip t) = none :=
        Option.not_isSome_iff_eq_none.1 (by simpa using h.1)
      simp only [scanEls, hnone]
      exact ih h.2

theorem scanGroup_none (g : Option (List SubEl))
    (h : groupHasDigit g = false) : scanGroup g = none := by
  cases g with
  | none => rfl
  | some els =>
    simp only [groupHasDigit] at h
    exact scanEls_none _ h

/-- C9 (amended): row classification is the ordered three-tier strategy
with first success winning — a digit-bearing sub-element beats any keyword
elsewhere in the row (quantity 3 from "3 pcs" beats "available"); when no
scanned sub-element bears a digit, the lowercased (not diacritic-normalized)
full text is tested against the literal unavailable keyword set (quantity 0)
then the available set (quantity 1); if neither matches, the quantity is
absent with the lowercased raw text retained. -/
theorem row_classifier_precedence :
    (extract_qty_from_row ⟨some [some "3 pcs"], some [], some [],
        some "Produit available"⟩ = (some 3, "3 pcs")) ∧
    (∀ row : Row, groupHasDigit row.qtyEls = false →
      groupHasDigit row.stockEls = false →
      groupHasDigit row.spanEls = false →
      extract_qty_from_row row =
        (if unavailableKeywords.any (fun k =>
            strContains (pyLower (row.fullText.getD "")) k) then
          (some 0, pyLower (row.fullText.getD ""))
        else if availableKeywords.any (fun k =>
            strContains (pyLower (row.fullText.getD "")) k) then
          (some 1, pyLower (row.fullText.getD ""))
        else (none, pyLower (row.fullText.getD "")))) := by
  constructor
  · decide
  · intro row h1 h2 h3
    simp only [extract_qty_from_row, scanGroup_none _ h1,
      scanGroup_none _ h2, scanGroup_none _ h3]

theorem row_classifier_precedence_witness :
    extract_qty_from_row ⟨some [], some [], some [], some "En Stock"⟩ =
      (if unavailableKeywords.any (fun k =>
          strContains (pyLower ((some "En Stock").getD "")) k) then
        (some 0, pyLower ((some "En Stock").getD ""))
      else if availableKeywords.any (fun k =>
          strContains (pyLower ((some "En Stock").getD "")) k) then
        (some 1, pyLower ((some "En Stock").getD ""))
      else (none, pyLower ((some "En Stock").getD ""))) :=
  row_classifier_precedence.2 ⟨some [], some [], some [], some "En Stock"⟩
    (by decide) (by decide) (by decide)

end JYSK
